import Mathlib

/-!
# Verification of the enable3d-phaser water simulation subsystem

A shallow embedding of the GPGPU height-field water simulation
(`CompWaterPBR` in `src/components/CompWaterPBR.ts` and its near-duplicate
`GPGPUWaterPBR`), the buoyancy consumer (`CompBuoyancy.ts`), and theorems
settling the frozen claims about them.

Modelling conventions:
* Numbers are exact rationals (`ℚ`).  JavaScript / GLSL division by zero is
  not exercised by any theorem below; where a `ℚ` division by zero could
  diverge from IEEE semantics it is noted next to the definition.
* The hardware transcendental functions (`sin`, `exp`, `sqrt`) and the
  float constant `Math.PI` are abstracted as an explicit `Oracle` record of
  rational-valued functions.  Every theorem below either holds for all
  oracles or carries an explicit pointwise hypothesis about the oracle; no
  analytic property of the approximations is assumed silently.
* The one claim about a genuine real-number property (the spatial integral
  of the splash kernel, C8) is settled over `ℝ` against an exact-`Real.exp`
  transcription of the same formula.
-/

namespace Water

/-- `MIN_OMEGA = 0.5` rad/s, the angular-frequency floor of the deep-water
fallback (`CompWaterPBR.ts` line 5). -/
def MIN_OMEGA : ℚ := 1/2

/-- GLSL `clamp(x, lo, hi) = min(max(x, lo), hi)`. -/
def clampQ (x lo hi : ℚ) : ℚ := min (max x lo) hi

/-- GLSL `smoothstep(e0, e1, x)`: Hermite ramp.  (Used in the kernel only
with `e0 = 0`, `e1 = 0.04`, so the `ℚ` division is never by zero there.) -/
def smoothstepQ (e0 e1 x : ℚ) : ℚ :=
  let t := clampQ ((x - e0) / (e1 - e0)) 0 1
  t * t * (3 - 2 * t)

/-- GLSL `mix(a, b, t) = a*(1-t) + b*t`. -/
def mixQ (a b t : ℚ) : ℚ := a * (1 - t) + b * t

/-- The runtime's transcendental primitives, abstracted: `sinF`, `expF`,
`sqrtF` stand for the GPU/`Math` implementations of `sin`, `exp`, `sqrt`,
and `piQ` for the float constant `Math.PI`.  Theorems quantify over these;
none of their analytic properties are assumed except where stated as an
explicit hypothesis. -/
structure Oracle where
  sinF : ℚ → ℚ
  expF : ℚ → ℚ
  sqrtF : ℚ → ℚ
  piQ : ℚ

/-- The uniforms of the `HEIGHT_FS` compute pass (`CompWaterPBR.ts`
lines 8–33 declare them; the constructor initialises them).  The four
plane-wave and four radial-wave uniform arrays are modelled as functions
on `Fin 4` (`#define MAX_PW 4`, `#define MAX_RW 4`). -/
structure Uniforms where
  mousePos : ℚ × ℚ
  mouseSize : ℚ
  viscosity : ℚ
  delta : ℚ
  bounds : ℚ × ℚ
  splashStrength : ℚ
  baselineReturn : ℚ
  simTime : ℚ
  pw_dir : Fin 4 → ℚ × ℚ
  pw_k : Fin 4 → ℚ
  pw_omega : Fin 4 → ℚ
  pw_amp : Fin 4 → ℚ
  pw_phase : Fin 4 → ℚ
  rw_center : Fin 4 → ℚ × ℚ
  rw_k : Fin 4 → ℚ
  rw_omega : Fin 4 → ℚ
  rw_amp : Fin 4 → ℚ
  rw_decay : Fin 4 → ℚ
  rw_phase : Fin 4 → ℚ

/-- Local XY (world units) of the cell centre `(i, j)`:
`uv = gl_FragCoord.xy * cell` with `gl_FragCoord.xy = (i+0.5, j+0.5)`,
then `local = (uv - 0.5) * 2.0 * bounds` (`HEIGHT_FS` lines 36–37, 58). -/
def localOf (W H : ℕ) (U : Uniforms) (i j : ℕ) : ℚ × ℚ :=
  let uvx : ℚ := ((i : ℚ) + 1/2) / (W : ℚ)
  let uvy : ℚ := ((j : ℚ) + 1/2) / (H : ℚ)
  ((uvx - 1/2) * 2 * U.bounds.1, (uvy - 1/2) * 2 * U.bounds.2)

/-- The splash velocity impulse of `HEIGHT_FS` (lines 59, 63–66):
`d = length(local - mousePos)`, `r = d / mouseSize`,
`impulse = (1 - 50r²)·exp(-100r²)·splashStrength`.
(The unused falloff `k = clamp(1 - smoothstep(0, mouseSize, d), 0, 1)` of
line 60 is dead code in the shader and omitted.) -/
def splashImpulse (O : Oracle) (U : Uniforms) (lxy : ℚ × ℚ) : ℚ :=
  let d := O.sqrtF ((lxy.1 - U.mousePos.1)^2 + (lxy.2 - U.mousePos.2)^2)
  let r := d / U.mouseSize
  let r2 := r * r
  let g := O.expF (-100 * r2)
  (1 - 50 * r2) * g * U.splashStrength

/-- One plane-wave forcing term (`HEIGHT_FS` lines 74–80): skipped when the
amplitude gate is zero, otherwise `amp·sin(k·(dir·local) - ω·simTime + φ)`. -/
def pwTerm (O : Oracle) (U : Uniforms) (lxy : ℚ × ℚ) (i : Fin 4) : ℚ :=
  if U.pw_amp i ≠ 0 then
    let theta := U.pw_k i * ((U.pw_dir i).1 * lxy.1 + (U.pw_dir i).2 * lxy.2)
      - U.pw_omega i * U.simTime + U.pw_phase i
    U.pw_amp i * O.sinF theta
  else 0

/-- One radial-wave forcing term (`HEIGHT_FS` lines 83–106): Mexican-hat
envelope `(1-2q²)·exp(-q²)` with `q = r/σ`, `σ = max(10⁻³, 1/decay)`,
times `amp·sin(k·r - max(ω,10⁻³)·simTime + φ)`; skipped when `amp = 0`.
(`1/decay` at `decay = 0` is `0` in `ℚ` where GLSL gives `∞`; no theorem
below evaluates this branch at `decay = 0`.) -/
def rwTerm (O : Oracle) (U : Uniforms) (lxy : ℚ × ℚ) (i : Fin 4) : ℚ :=
  if U.rw_amp i ≠ 0 then
    let dx := lxy.1 - (U.rw_center i).1
    let dy := lxy.2 - (U.rw_center i).2
    let r := O.sqrtF (dx^2 + dy^2)
    let sigma := max (1/1000) (1 / U.rw_decay i)
    let q := r / sigma
    let env := O.expF (-(q*q))
    let hat := (1 - 2*q*q) * env
    let om := max (U.rw_omega i) (1/1000)
    let theta := U.rw_k i * r - om * U.simTime + U.rw_phase i
    U.rw_amp i * hat * O.sinF theta
  else 0

/-- One `HEIGHT_FS` pass for cell `(i, j)` of a `W × H` grid whose cells
hold `(height, velocity)` (the shader's R and G channels).  A line-by-line
transcription of `HEIGHT_FS` `main` (`CompWaterPBR.ts` lines 35–130);
neighbour reads clamp to the edge (the sim textures use the three.js
default `ClampToEdgeWrapping`).  Intermediate `height` values that the
shader overwrites are kept as dead bindings to mirror the source. -/
def heightStep (O : Oracle) (W H : ℕ) (U : Uniforms)
    (g : ℕ → ℕ → ℚ × ℚ) (i j : ℕ) : ℚ × ℚ :=
  let uvx : ℚ := ((i : ℚ) + 1/2) / (W : ℚ)
  let uvy : ℚ := ((j : ℚ) + 1/2) / (H : ℚ)
  let hC := (g i j).1
  let hL := (g (i - 1) j).1
  let hR := (g (min (i + 1) (W - 1)) j).1
  let hD := (g i (j - 1)).1
  let hU := (g i (min (j + 1) (H - 1))).1
  let sump := hL + hR + hD + hU - 4 * hC
  let gravity := (W : ℚ) * 3
  let accel := sump * gravity
  let vel0 := (g i j).2 + accel * U.delta
  let height0 := hC + vel0 * U.delta
  let height1 := height0 + sump * U.viscosity
  let lxy := localOf W H U i j
  let vel1 := vel0 + splashImpulse O U lxy
  let forcing := (∑ n : Fin 4, pwTerm O U lxy n) + (∑ n : Fin 4, rwTerm O U lxy n)
  let vel2 := vel1 + forcing * U.delta
  let vel3 := clampQ vel2 (-20) 20
  let height2 := hC + vel3 * U.delta
  let height3 := clampQ height2 (-5) 5
  let vel4 := vel3 * (995/1000)
  let height4 := hC + vel4 * U.delta
  let height5 := height4 - height4 * U.baselineReturn * U.delta
  let fx := min uvx (1 - uvx)
  let fy := min uvy (1 - uvy)
  let border := smoothstepQ 0 (4/100) (min fx fy)
  let vel5 := vel4 * mixQ (99/100) 1 border
  (height5, vel5)

/-- A plane-wave bookkeeping entry (`this._planeWaves` element:
`{dir, k, omega, amp, phase}`). -/
structure PlaneWave where
  dir : ℚ × ℚ
  k : ℚ
  omega : ℚ
  amp : ℚ
  phase : ℚ
deriving DecidableEq

/-- The mutable state of one `CompWaterPBR` instance that the claims
concern: sim resolution, the `HEIGHT_FS` uniforms, the current height/
velocity buffer (cells outside `W × H` are irrelevant junk), the JS-side
clock `this.simTime`, the plane-wave bookkeeping list and the radial-wave
ring-buffer write cursor `this._rwWrite`.  (`_MAX_PW = _MAX_RW = 4`.) -/
structure WaterState where
  W : ℕ
  H : ℕ
  uniforms : Uniforms
  grid : ℕ → ℕ → ℚ × ℚ
  simTime : ℚ
  planeWaves : List PlaneWave
  rwWrite : ℕ

/-- The uniforms as seen by the compute pass inside `compUpdate dt`:
`delta.value = dt` and `simTime.value = this.simTime + dt`
(`CompWaterPBR.ts` lines 648–650). -/
def stepUniforms (dt : ℚ) (s : WaterState) : Uniforms :=
  { s.uniforms with delta := dt, simTime := s.simTime + dt }

/-- One whole-grid `HEIGHT_FS` pass: every cell of the next buffer is
`heightStep` of the previous buffer (the GPGPU double-buffer swap). -/
def stepGrid (O : Oracle) (W H : ℕ) (U : Uniforms)
    (g : ℕ → ℕ → ℚ × ℚ) : ℕ → ℕ → ℚ × ℚ :=
  fun i j => heightStep O W H U g i j

/-- `CompWaterPBR.compUpdate(dt)` (`CompWaterPBR.ts` lines 643–675), the
parts that touch simulation state: set the `delta` and `simTime` uniforms,
advance `this.simTime`, run the compute pass, then perform the one-frame
impulse reset `mousePos = (9999, 9999)`, `splashStrength = 0`.  (Binding
the output textures to the display material is rendering-only and not
modelled.)  Note there is no validation of `dt` whatsoever. -/
def compUpdate (O : Oracle) (dt : ℚ) (s : WaterState) : WaterState :=
  let U := stepUniforms dt s
  { s with
    simTime := s.simTime + dt
    grid := stepGrid O s.W s.H U s.grid
    uniforms := { U with mousePos := (9999, 9999), splashStrength := 0 } }

/-- `CompWaterPBR.splash(x, z, size, strength, coords)` (lines 614–624)
with `coords = 'local'` (the `'world'` branch only converts the point
through the mesh transform before doing the same writes): set `mousePos`,
`mouseSize` and `splashStrength` uniforms for the next step to consume. -/
def splash (x z size strength : ℚ) (s : WaterState) : WaterState :=
  { s with uniforms :=
    { s.uniforms with mousePos := (x, z), mouseSize := size,
                      splashStrength := strength } }

/-- `true` iff the JS test `Number.isFinite(o) && o > 0` passes for an
optional argument (`undefined ↦ none`; non-finite floats have no rational
representative, so `isFinite` holds of every `some`). -/
def optPos (o : Option ℚ) : Bool :=
  match o with
  | some x => decide (0 < x)
  | none => false

/-- `true` iff `Number.isFinite(o) && o !== 0` passes. -/
def optNonzero (o : Option ℚ) : Bool :=
  match o with
  | some x => decide (x ≠ 0)
  | none => false

/-- `CompWaterPBR._calcOmega(k, speed, omega, periodSec)` (lines 485–494):
resolve the angular frequency from, in priority order, a finite positive
explicit `omega`; a finite positive `periodSec` (`ω = 2π/period`); a finite
nonzero `speed` (`ω = |k·speed|`); else the deep-water fallback
`sqrt(max(0, g_sim·k))` for `k > 0` (0 otherwise), floored at `MIN_OMEGA`.
`g_sim = gpu.width * 3`. -/
def calcOmega (O : Oracle) (g_sim k : ℚ) (speed omega periodSec : Option ℚ) : ℚ :=
  if optPos omega then omega.getD 0
  else if optPos periodSec then 2 * O.piQ / periodSec.getD 0
  else if optNonzero speed then |k * speed.getD 0|
  else
    let om := if 0 < k then O.sqrtF (max 0 (g_sim * k)) else 0
    max om MIN_OMEGA

/-- `CompWaterPBR._calcDispersion({wavelength, speed, omega})`
(lines 497–502): `k = wavelength > 0 ? 2π/wavelength : 0` (a falsy —
zero/undefined — or non-positive wavelength gives `k = 0`), and `ω` from
`_calcOmega` with `periodSec = undefined`. -/
def calcDispersion (O : Oracle) (g_sim : ℚ)
    (wavelength : Option ℚ) (speed omega : Option ℚ) : ℚ × ℚ :=
  let k := match wavelength with
    | some w => if 0 < w then 2 * O.piQ / w else 0
    | none => 0
  (k, calcOmega O g_sim k speed omega none)

/-- `THREE.Vector2.normalize()`: divide by `length() || 1`.  The length is
the runtime square root of the squared norm, hence oracle-valued. -/
def normalize2 (O : Oracle) (v : ℚ × ℚ) : ℚ × ℚ :=
  let len := O.sqrtF (v.1^2 + v.2^2)
  let den := if len = 0 then 1 else len
  (v.1 / den, v.2 / den)

/-- `CompWaterPBR._addPWToUniforms()` (lines 451–465): copy the first
`n = min(length, 4)` bookkeeping entries into the uniform arrays and zero
the remaining amplitude gates (other uniform components beyond `n` keep
their previous values). -/
def addPWToUniforms (pws : List PlaneWave) (U : Uniforms) : Uniforms :=
  let n := min pws.length 4
  let dflt : PlaneWave := ⟨(1, 0), 0, 0, 0, 0⟩
  { U with
    pw_dir := fun i => if (i : ℕ) < n then (pws.getD i dflt).dir else U.pw_dir i
    pw_k := fun i => if (i : ℕ) < n then (pws.getD i dflt).k else U.pw_k i
    pw_omega := fun i => if (i : ℕ) < n then (pws.getD i dflt).omega else U.pw_omega i
    pw_amp := fun i => if (i : ℕ) < n then (pws.getD i dflt).amp else 0
    pw_phase := fun i => if (i : ℕ) < n then (pws.getD i dflt).phase else U.pw_phase i }

/-- `CompWaterPBR.addPlaneWave({dir, wavelength, amplitude, speed, phase,
omega})` (lines 563–578).  The body is guarded by
`if (this._planeWaves.length < this._MAX_PW)`: when the store already
holds 4 waves the call does nothing at all.  Otherwise the new wave —
with direction normalised, `k`/`ω` from `_calcDispersion`, and the given
amplitude stored unconditionally (no degeneracy gate here, unlike
`addRadialWave`) — is appended and the uniforms refreshed. -/
def addPlaneWave (O : Oracle) (dir : ℚ × ℚ) (wavelength : Option ℚ)
    (amplitude : ℚ) (speed : Option ℚ) (phase : Option ℚ) (omega : Option ℚ)
    (s : WaterState) : WaterState :=
  if s.planeWaves.length < 4 then
    let d := normalize2 O dir
    let ko := calcDispersion O ((s.W : ℚ) * 3) wavelength speed omega
    let w : PlaneWave := ⟨d, ko.1, ko.2, amplitude, phase.getD 0⟩
    let pws := s.planeWaves ++ [w]
    { s with planeWaves := pws, uniforms := addPWToUniforms pws s.uniforms }
  else s

/-- The argument record of `addRadialWave` (`IRadialWaveProps`): optional
fields are `Option`-valued (`undefined ↦ none`).  `amplitude` and `decay`
are taken as given rationals (an `undefined` amplitude would reach the
`Float32Array` as `NaN`, which has no rational representative and is not
exercised by any claim). -/
structure RadialWaveProps where
  center : ℚ × ℚ
  wavelength : Option ℚ
  amplitude : ℚ
  decay : ℚ
  phase : Option ℚ
  speed : Option ℚ
  omega : Option ℚ
  periodSec : Option ℚ

/-- `CompWaterPBR.addRadialWave(props)` (lines 581–600): derive `k` and
`ω`, pick the ring slot `i = this._rwWrite % 4` and advance the cursor,
gate the amplitude to zero when `k = 0` or `ω` is non-finite or `ω ≤ 0`,
and write the slot's uniforms in place. -/
def addRadialWave (O : Oracle) (p : RadialWaveProps) (s : WaterState) : WaterState :=
  let k : ℚ := match p.wavelength with
    | some w => if 0 < w then 2 * O.piQ / w else 0
    | none => 0
  let om := calcOmega O ((s.W : ℚ) * 3) k p.speed p.omega p.periodSec
  let slot : Fin 4 := ⟨s.rwWrite % 4, Nat.mod_lt _ (by norm_num)⟩
  let amp := if k = 0 ∨ om ≤ 0 then 0 else p.amplitude
  { s with
    rwWrite := s.rwWrite + 1
    uniforms := { s.uniforms with
      rw_center := Function.update s.uniforms.rw_center slot p.center
      rw_k := Function.update s.uniforms.rw_k slot k
      rw_omega := Function.update s.uniforms.rw_omega slot om
      rw_amp := Function.update s.uniforms.rw_amp slot amp
      rw_decay := Function.update s.uniforms.rw_decay slot p.decay
      rw_phase := Function.update s.uniforms.rw_phase slot (p.phase.getD 0) }}

/-- A fresh `CompWaterPBR` simulation state as built by the constructor
(`CompWaterPBR.ts` lines 225–309) with the default options: zero-seeded
buffer, `mousePos = (9999, 9999)`, `mouseSize = 10`, `viscosity = 0.01`,
`delta = 1/60`, `bounds = (sizeX/2, sizeY/2)`, `splashStrength = 0`,
`baselineReturn = 0.08`, `simTime = 0`, all wave slots inert
(`pw_dir = (1,0)`, every other wave uniform zero), empty plane-wave list,
ring cursor 0. -/
def mkWater (sizeX sizeY : ℚ) (W H : ℕ) : WaterState :=
  { W := W
    H := H
    uniforms :=
      { mousePos := (9999, 9999)
        mouseSize := 10
        viscosity := 1/100
        delta := 1/60
        bounds := (sizeX / 2, sizeY / 2)
        splashStrength := 0
        baselineReturn := 8/100
        simTime := 0
        pw_dir := fun _ => (1, 0)
        pw_k := fun _ => 0
        pw_omega := fun _ => 0
        pw_amp := fun _ => 0
        pw_phase := fun _ => 0
        rw_center := fun _ => (0, 0)
        rw_k := fun _ => 0
        rw_omega := fun _ => 0
        rw_amp := fun _ => 0
        rw_decay := fun _ => 0
        rw_phase := fun _ => 0 }
    grid := fun _ _ => (0, 0)
    simTime := 0
    planeWaves := []
    rwWrite := 0 }

/-- The bilinear sample of `CompWaterPBR.getHeightAtPoint` (lines 504–551):
from the local-frame coordinates `(lx, ly)` of the query point, clamp into
UV, convert to fractional texel coordinates, and bilinearly interpolate the
four surrounding height texels read back from the current render target
(`grid` is the readback: cell `(x, y) ↦` stored height).  The constructor
sets `_invSizeX = sizeX !== 0 ? 1/sizeX : 0`, which coincides with the
rational `1/sizeX` (where `1/0 = 0`).  The `readW`/`readH` buffer indexing
of lines 533–544 resolves to `h_ab = grid x_a y_b` in every case. -/
def bilinearHeightValue (W H : ℕ) (grid : ℕ → ℕ → ℚ)
    (sizeX sizeY lx ly : ℚ) : ℚ :=
  let u := min (max (lx * (1 / sizeX) + 1/2) 0) 1
  let v := min (max (ly * (1 / sizeY) + 1/2) 0) 1
  let fx := u * ((W : ℚ) - 1)
  let fy := v * ((H : ℚ) - 1)
  let x0 : ℤ := ⌊fx⌋
  let y0 : ℤ := ⌊fy⌋
  let x1 : ℤ := min (x0 + 1) ((W : ℤ) - 1)
  let y1 : ℤ := min (y0 + 1) ((H : ℤ) - 1)
  let h00 := grid x0.toNat y0.toNat
  let h10 := grid x1.toNat y0.toNat
  let h01 := grid x0.toNat y1.toNat
  let h11 := grid x1.toNat y1.toNat
  let tx := if x0 < x1 then fx - (x0 : ℚ) else 0
  let ty := if y0 < y1 then fy - (y0 : ℚ) else 0
  let hx0 := h00 + (h10 - h00) * tx
  let hx1 := h01 + (h11 - h01) * tx
  hx0 + (hx1 - hx0) * ty

/-- `CompWaterPBR.getHeightAtPoint` return value (lines 553–560): the
world-space resting height `baseY` of the query point's plane projection
plus the interpolated displacement `heightValue * displacementScale`
projected along the plane's world normal (`_normalY`).  `baseY` — the
`localToWorld` image's Y — and `normalY` are abstract transform data here;
the early-return and non-finite fallbacks (lines 506–514, 556) return
`baseY`-like defaults and are outside the sampled path modelled. -/
def getHeightAtPoint (W H : ℕ) (grid : ℕ → ℕ → ℚ)
    (sizeX sizeY displacementScale normalY baseY lx ly : ℚ) : ℚ :=
  baseY + bilinearHeightValue W H grid sizeX sizeY lx ly * displacementScale * normalY

/-- A rational 3-vector standing for a `THREE.Vector3`. -/
structure Vec3 where
  x : ℚ
  y : ℚ
  z : ℚ
deriving DecidableEq

/-- `v.addScaledVector(w, s)`. -/
def Vec3.addScaled (v w : Vec3) (s : ℚ) : Vec3 :=
  ⟨v.x + w.x * s, v.y + w.y * s, v.z + w.z * s⟩

/-- `v.multiplyScalar(s)`. -/
def Vec3.smul (v : Vec3) (s : ℚ) : Vec3 := ⟨v.x * s, v.y * s, v.z * s⟩

/-- Squared Euclidean norm (exact; `length()` itself is `sqrtF` of this). -/
def Vec3.normSq (v : Vec3) : ℚ := v.x^2 + v.y^2 + v.z^2

/-- `THREE.Vector3.clampLength(min, max)`:
`divideScalar(length() || 1).multiplyScalar(max(min, min(max, length())))`,
with `length()` the runtime square root of the squared norm. -/
def Vec3.clampLength (sqrtF : ℚ → ℚ) (v : Vec3) (lo hi : ℚ) : Vec3 :=
  let len := sqrtF v.normSq
  let den := if len = 0 then 1 else len
  (v.smul (1 / den)).smul (max lo (min hi len))

/-- The body state `CompBuoyancy._applyForces` mutates: the object's Y
position, the component's `_velocity.y` (its X/Z are never touched), and
`_angularVelocity`. -/
structure BuoyancyState where
  posY : ℚ
  velY : ℚ
  angVel : Vec3

/-- The angular velocity of `_applyForces` just before `clampLength`
(`CompBuoyancy.ts` lines 134–139): add the torque impulse
`torque * (dt / inertia)` with `inertia = max(volume, 1e-3)` and apply
the damping factor `max(0, 1 - angularDragCoefficient * dt)`. -/
def angVelPreClamp (volume angularDragCoefficient : ℚ)
    (angVel torque : Vec3) (dt : ℚ) : Vec3 :=
  let inertia := max volume (1/1000)
  (angVel.addScaled torque (dt / inertia)).smul
    (max 0 (1 - angularDragCoefficient * dt))

/-- `CompBuoyancy._applyForces(avgWaterHeight, buoyancyForceY, torque, dt)`
(`CompBuoyancy.ts` lines 112–148): spring/drag/gravity force on Y, clamp
`_velocity.y` to `[-20, 20]`, integrate position, integrate and damp the
angular velocity, `clampLength(0, 4π)`.  The quaternion advance (lines
141–146) mutates only the orientation and is omitted; `piQ` is the float
`Math.PI`.  `gravityY` is `this.gravity.y` (default `-9.81`). -/
def applyForces (O : Oracle) (density volume dragCoefficient
    angularDragCoefficient gravityY : ℚ) (st : BuoyancyState)
    (avgWaterHeight buoyancyForceY : ℚ) (torque : Vec3) (dt : ℚ) :
    BuoyancyState :=
  let mass := max (density * volume) (1/1000)
  let displacement := avgWaterHeight - st.posY
  let clampedDisplacement := min (max displacement 0) volume
  let springForce := if 0 < buoyancyForceY then buoyancyForceY
    else clampedDisplacement * volume * (981/100)
  let damping := dragCoefficient * st.velY
  let gravityForceY := gravityY * mass
  let netForceY := springForce - damping + gravityForceY
  let accelerationY := netForceY / mass
  let velY1 := st.velY + accelerationY * dt
  let velY2 := max (-20) (min 20 velY1)
  let posY1 := st.posY + velY2 * dt
  let av := Vec3.clampLength O.sqrtF
    (angVelPreClamp volume angularDragCoefficient st.angVel torque dt)
    0 (O.piQ * 4)
  { posY := posY1, velY := velY2, angVel := av }

/-- The splash impulse kernel of `HEIGHT_FS` lines 63–66 transcribed over
the reals with exact `Real.exp` (the idealised semantics of the float
formula, for the integral claim): at offset `(x, y)` from the splash
point, `r² = (x²+y²)/R²` and the impulse is
`(1 - 50·r²)·exp(-100·r²)·strength`. -/
noncomputable def splashImpulseReal (strength R x y : ℝ) : ℝ :=
  let r2 := (x^2 + y^2) / R^2
  (1 - 50 * r2) * Real.exp (-100 * r2) * strength

/-- The general radial "hat" profile `(1 - a·ρ²)·exp(-c·ρ²)` on the plane
(`ρ² = x² + y²`); the splash kernel at unit radius and strength is the
case `a = 50`, `c = 100`, and a genuinely zero-mean kernel with the same
Gaussian envelope is the case `a = c`. -/
noncomputable def hatKernel (a c : ℝ) (p : ℝ × ℝ) : ℝ :=
  (1 - a * (p.1^2 + p.2^2)) * Real.exp (-c * (p.1^2 + p.2^2))

/-- A concrete transcendental oracle for closed evaluations whose results
do not depend on the oracle's values (all primitives constantly `0`,
`Math.PI ↦ 3`). -/
def oracle0 : Oracle := ⟨fun _ => 0, fun _ => 0, fun _ => 0, 3⟩

/-- An 8×8 water body with all-zero buffers and no active sources — the
fresh constructor state (spec Scenario A). -/
def water0 : WaterState := mkWater 20 20 8 8

/-- A 1×1 water body whose single cell starts at height 5, velocity 4 —
both inside the claimed stability bounds. -/
def waterC1 : WaterState := { mkWater 20 20 1 1 with grid := fun _ _ => (5, 4) }

/-- Plane-wave arguments with amplitude `a` used by the capacity
counterexamples: direction `(1,0)`, wavelength 10, speed 2. -/
def pwArgs (a : ℚ) (s : WaterState) : WaterState :=
  addPlaneWave oracle0 (1, 0) (some 10) a (some 2) none none s

/-- The oracle used by the buoyancy witness: a square root that is exact
at the one squared norm the witness reaches (25), `Math.PI ↦ 3`. -/
def oracleB : Oracle :=
  ⟨fun _ => 0, fun _ => 0, fun q => if q = 25 then 5 else 0, 3⟩

/-! ## Basic bounds on the GLSL helper functions -/

theorem clampQ_le_hi (x lo hi : ℚ) : clampQ x lo hi ≤ hi := min_le_right _ _

theorem lo_le_clampQ (x lo hi : ℚ) (h : lo ≤ hi) : lo ≤ clampQ x lo hi :=
  le_min (le_max_right x lo) h

theorem smoothstepQ_nonneg (e0 e1 x : ℚ) : 0 ≤ smoothstepQ e0 e1 x := by
  have h0 : 0 ≤ clampQ ((x - e0) / (e1 - e0)) 0 1 := lo_le_clampQ _ _ _ (by norm_num)
  have h1 : clampQ ((x - e0) / (e1 - e0)) 0 1 ≤ 1 := clampQ_le_hi _ _ _
  simp only [smoothstepQ]
  nlinarith

theorem smoothstepQ_le_one (e0 e1 x : ℚ) : smoothstepQ e0 e1 x ≤ 1 := by
  have h0 : 0 ≤ clampQ ((x - e0) / (e1 - e0)) 0 1 := lo_le_clampQ _ _ _ (by norm_num)
  have h1 : clampQ ((x - e0) / (e1 - e0)) 0 1 ≤ 1 := clampQ_le_hi _ _ _
  simp only [smoothstepQ]
  nlinarith [mul_nonneg (sq_nonneg (1 - clampQ ((x - e0) / (e1 - e0)) 0 1))
    (by linarith : (0:ℚ) ≤ 1 + 2 * clampQ ((x - e0) / (e1 - e0)) 0 1)]

/-- The final velocity write of `HEIGHT_FS`: clamp to `[-20,20]`, decay by
`0.995`, attenuate by the border factor `mix(0.99, 1, border) ∈ [0.99, 1]`
— the result always lies in `[-19.9, 19.9] ⊆ [-20, 20]`. -/
theorem velOut_bounds (v b : ℚ) (hb0 : 0 ≤ b) (hb1 : b ≤ 1) :
    -20 ≤ clampQ v (-20) 20 * (995/1000) * mixQ (99/100) 1 b ∧
    clampQ v (-20) 20 * (995/1000) * mixQ (99/100) 1 b ≤ 20 := by
  have hlo : (-20 : ℚ) ≤ clampQ v (-20) 20 := lo_le_clampQ _ _ _ (by norm_num)
  have hhi : clampQ v (-20) 20 ≤ 20 := clampQ_le_hi _ _ _
  have hm0 : (99/100 : ℚ) ≤ mixQ (99/100) 1 b := by simp only [mixQ]; nlinarith
  have hm1 : mixQ (99/100) 1 b ≤ 1 := by simp only [mixQ]; nlinarith
  constructor <;> nlinarith

/-- The final height write of `HEIGHT_FS`: with the post-clamp velocity
`v ∈ [-20, 20]` and `dt ≥ 0`, the stored height
`(hC + v·dt) - (hC + v·dt)·br·dt` is bounded by
`(|hC| + 20·dt)·|1 - br·dt|`. -/
theorem heightOut_bound (hC v br dt : ℚ) (hdt : 0 ≤ dt)
    (hv0 : -20 ≤ v) (hv1 : v ≤ 20) :
    |(hC + v * dt) - (hC + v * dt) * br * dt| ≤
      (|hC| + 20 * dt) * |1 - br * dt| := by
  have h1 : (hC + v * dt) - (hC + v * dt) * br * dt
      = (hC + v * dt) * (1 - br * dt) := by ring
  rw [h1, abs_mul]
  refine mul_le_mul_of_nonneg_right ?_ (abs_nonneg _)
  calc |hC + v * dt| ≤ |hC| + |v * dt| := abs_add _ _
    _ ≤ |hC| + 20 * dt := by
        rw [abs_mul, abs_of_nonneg hdt]
        have : |v| ≤ 20 := abs_le.mpr ⟨hv0, hv1⟩
        nlinarith

/-- Per-cell bounds after one `HEIGHT_FS` pass: the stored velocity always
lands in `[-20, 20]`; the stored height is bounded in terms of the cell's
previous height, `dt`, and the baseline-return rate (it is *not* clamped
to `[-5, 5]`: the clamp of shader line 114 is overwritten at line 118). -/
theorem heightStep_bounds (O : Oracle) (W H : ℕ) (U : Uniforms)
    (g : ℕ → ℕ → ℚ × ℚ) (i j : ℕ) (hdt : 0 ≤ U.delta) :
    (-20 ≤ (heightStep O W H U g i j).2 ∧ (heightStep O W H U g i j).2 ≤ 20) ∧
    |(heightStep O W H U g i j).1| ≤
      (|(g i j).1| + 20 * U.delta) * |1 - U.baselineReturn * U.delta| := by
  simp only [heightStep]
  refine ⟨velOut_bounds _ _ (smoothstepQ_nonneg _ _ _) (smoothstepQ_le_one _ _ _), ?_⟩
  exact heightOut_bound _ _ _ _ hdt
    (by nlinarith [lo_le_clampQ (((g i j).2 + (((g (i-1) j).1 + (g (min (i+1) (W-1)) j).1
      + (g i (j-1)).1 + (g i (min (j+1) (H-1))).1 - 4 * (g i j).1) * ((W:ℚ)*3)) * U.delta
      + splashImpulse O U (localOf W H U i j))
      + ((∑ n : Fin 4, pwTerm O U (localOf W H U i j) n)
        + (∑ n : Fin 4, rwTerm O U (localOf W H U i j) n)) * U.delta) (-20) 20 (by norm_num)])
    (by nlinarith [clampQ_le_hi (((g i j).2 + (((g (i-1) j).1 + (g (min (i+1) (W-1)) j).1
      + (g i (j-1)).1 + (g i (min (j+1) (H-1))).1 - 4 * (g i j).1) * ((W:ℚ)*3)) * U.delta
      + splashImpulse O U (localOf W H U i j))
      + ((∑ n : Fin 4, pwTerm O U (localOf W H U i j) n)
        + (∑ n : Fin 4, rwTerm O U (localOf W H U i j) n)) * U.delta) (-20) 20])

/-! ## C1 — per-step stability bounds -/

/-- C1 (counterexample): the claim "after one step every cell's stored
height lies within `[-5, 5]`" is false.  From the 1×1 state with height 5
and velocity 4 (both inside the claimed bounds) and the valid step
`dt = 1`, the stored height after one `compUpdate` is `10327/1250 = 8.26`:
the shader's height clamp (line 114) is discarded when the height is
recomputed from the decayed velocity (line 118). -/
theorem C1_counterexample : 5 < ((compUpdate oracle0 1 waterC1).grid 0 0).1 := by
  norm_num [compUpdate, stepGrid, stepUniforms, heightStep, waterC1, mkWater,
    oracle0, splashImpulse, localOf, pwTerm, rwTerm, clampQ, smoothstepQ, mixQ,
    Fin.sum_univ_four]

/-- C1 (amended): for every `dt ≥ 0`, every starting grid state and every
cell, after one `compUpdate` the cell's stored velocity lies within
`[-20, 20]`; the cell's stored height is **not** clamped to `[-5, 5]` —
instead it obeys
`|h'| ≤ (|h_prev| + 20·dt)·|1 - baselineReturn·dt|`, because the `[-5,5]`
clamp is applied only to an intermediate value that the shader then
overwrites. -/
theorem C1_amended (O : Oracle) (dt : ℚ) (s : WaterState) (hdt : 0 ≤ dt)
    (i j : ℕ) :
    (-20 ≤ ((compUpdate O dt s).grid i j).2 ∧
      ((compUpdate O dt s).grid i j).2 ≤ 20) ∧
    |((compUpdate O dt s).grid i j).1| ≤
      (|(s.grid i j).1| + 20 * dt) * |1 - s.uniforms.baselineReturn * dt| := by
  have h := heightStep_bounds O s.W s.H (stepUniforms dt s) s.grid i j hdt
  simpa [compUpdate, stepGrid, stepUniforms] using h

/-- C1 (witness): the amended bounds instantiated at `dt = 1` on the
default 8×8 state. -/
theorem C1_amended_witness :
    (-20 ≤ ((compUpdate oracle0 1 water0).grid 0 0).2 ∧
      ((compUpdate oracle0 1 water0).grid 0 0).2 ≤ 20) ∧
    |((compUpdate oracle0 1 water0).grid 0 0).1| ≤
      (|(water0.grid 0 0).1| + 20 * 1) *
        |1 - water0.uniforms.baselineReturn * 1| :=
  C1_amended oracle0 1 water0 (by norm_num) 0 0

/-! ## C2 — no validation of the step delta -/

/-- C2 (counterexample): a negative `stepDelta` is *not* rejected:
`compUpdate(-1)` on the fresh state changes the simulation clock
(`0 ↦ -1`), so the call is not a no-op. -/
theorem C2_counterexample :
    (compUpdate oracle0 (-1) water0).simTime ≠ water0.simTime := by
  norm_num [compUpdate, water0, mkWater]

/-- C2 (amended): `compUpdate` performs no validation of `dt` at all: for
*every* `dt` — negative included — the simulation clock advances by
exactly `dt` and the buffers are stepped with that delta. -/
theorem C2_amended (O : Oracle) (dt : ℚ) (s : WaterState) :
    (compUpdate O dt s).simTime = s.simTime + dt ∧
    (compUpdate O dt s).grid = stepGrid O s.W s.H (stepUniforms dt s) s.grid :=
  ⟨rfl, rfl⟩

/-! ## C3 — one-shot splash consumption -/

/-- C3: a splash is one-shot.  After the `compUpdate` that consumes a
`splash(x, z, size, strength)`, the splash position uniform is reset to
the sentinel `(9999, 9999)` and the splash strength to `0`; consequently
an immediately following step (any `dt'`) computes a splash impulse of
exactly `0` at every cell. -/
theorem C3_oneShot (O : Oracle) (x z size strength dt dt' : ℚ)
    (s : WaterState) :
    (compUpdate O dt (splash x z size strength s)).uniforms.splashStrength = 0 ∧
    (compUpdate O dt (splash x z size strength s)).uniforms.mousePos = (9999, 9999) ∧
    ∀ i j : ℕ,
      splashImpulse O
        (stepUniforms dt' (compUpdate O dt (splash x z size strength s)))
        (localOf (compUpdate O dt (splash x z size strength s)).W
          (compUpdate O dt (splash x z size strength s)).H
          (stepUniforms dt' (compUpdate O dt (splash x z size strength s))) i j)
        = 0 := by
  refine ⟨rfl, rfl, fun i j => ?_⟩
  simp [splashImpulse, compUpdate, stepUniforms, splash]

/-! ## C4 — wave-store capacity policies -/

/-- C4 (counterexample): the plane-wave store is *not* a ring buffer.
After four `addPlaneWave` calls (amplitudes 1, 2, 3, 4) the store is full;
a fifth call (amplitude 5) leaves the state completely unchanged — it is
dropped, and slot 0 still holds the oldest wave's amplitude 1 instead of
being overwritten. -/
theorem C4_counterexample :
    pwArgs 5 (pwArgs 4 (pwArgs 3 (pwArgs 2 (pwArgs 1 water0)))) =
      pwArgs 4 (pwArgs 3 (pwArgs 2 (pwArgs 1 water0))) ∧
    (pwArgs 4 (pwArgs 3 (pwArgs 2 (pwArgs 1 water0)))).uniforms.pw_amp 0 = 1 := by
  constructor
  · rfl
  · rfl

/-- C4 (amended): the two variants differ.  `addPlaneWave` on a full
store (4 waves) is a silent no-op — adds beyond capacity are dropped, not
ring-written.  `addRadialWave` is a 4-slot ring buffer: it always advances
the write cursor and overwrites slot `rwWrite % 4` (the oldest slot) with
the new wave's data. -/
theorem C4_amended (O : Oracle) (s : WaterState) (dir : ℚ × ℚ)
    (wl : Option ℚ) (amp : ℚ) (sp ph om : Option ℚ) (p : RadialWaveProps)
    (hfull : 4 ≤ s.planeWaves.length) :
    addPlaneWave O dir wl amp sp ph om s = s ∧
    (addRadialWave O p s).rwWrite = s.rwWrite + 1 ∧
    (addRadialWave O p s).uniforms.rw_center
      ⟨s.rwWrite % 4, Nat.mod_lt _ (by norm_num)⟩ = p.center ∧
    (addRadialWave O p s).uniforms.rw_decay
      ⟨s.rwWrite % 4, Nat.mod_lt _ (by norm_num)⟩ = p.decay := by
  refine ⟨?_, rfl, ?_, ?_⟩
  · simp [addPlaneWave, Nat.not_lt.mpr hfull]
  · simp [addRadialWave]
  · simp [addRadialWave]

/-- C4 (witness): the amended statement instantiated at the concrete full
store built by four plane-wave adds and a concrete radial wave. -/
theorem C4_witness :
    addPlaneWave oracle0 (1, 0) (some 10) 5 (some 2) none none
        (pwArgs 4 (pwArgs 3 (pwArgs 2 (pwArgs 1 water0)))) =
      pwArgs 4 (pwArgs 3 (pwArgs 2 (pwArgs 1 water0))) ∧
    (addRadialWave oracle0 ⟨(7, 8), some 10, 2, 1/10, none, some 1, none, none⟩
        (pwArgs 4 (pwArgs 3 (pwArgs 2 (pwArgs 1 water0))))).rwWrite =
      (pwArgs 4 (pwArgs 3 (pwArgs 2 (pwArgs 1 water0)))).rwWrite + 1 ∧
    (addRadialWave oracle0 ⟨(7, 8), some 10, 2, 1/10, none, some 1, none, none⟩
        (pwArgs 4 (pwArgs 3 (pwArgs 2 (pwArgs 1 water0))))).uniforms.rw_center
      ⟨(pwArgs 4 (pwArgs 3 (pwArgs 2 (pwArgs 1 water0)))).rwWrite % 4,
        Nat.mod_lt _ (by norm_num)⟩ = (7, 8) ∧
    (addRadialWave oracle0 ⟨(7, 8), some 10, 2, 1/10, none, some 1, none, none⟩
        (pwArgs 4 (pwArgs 3 (pwArgs 2 (pwArgs 1 water0))))).uniforms.rw_decay
      ⟨(pwArgs 4 (pwArgs 3 (pwArgs 2 (pwArgs 1 water0)))).rwWrite % 4,
        Nat.mod_lt _ (by norm_num)⟩ = 1/10 :=
  C4_amended oracle0 (pwArgs 4 (pwArgs 3 (pwArgs 2 (pwArgs 1 water0))))
    (1, 0) (some 10) 5 (some 2) none none
    ⟨(7, 8), some 10, 2, 1/10, none, some 1, none, none⟩ (by decide)

/-! ## C5 — degenerate-wave amplitude gating -/

/-- C5 (counterexample): `addPlaneWave` has *no* degeneracy gate.  Adding
a plane wave with wavelength 0 (hence wavenumber `k = 0`) and amplitude 1
stores amplitude 1 — not 0 — in the uniform slot. -/
theorem C5_counterexample :
    (addPlaneWave oracle0 (1, 0) (some 0) 1 (some 2) none none
      water0).uniforms.pw_amp 0 = 1 ∧
    (addPlaneWave oracle0 (1, 0) (some 0) 1 (some 2) none none
      water0).uniforms.pw_k 0 = 0 := by
  constructor
  · rfl
  · rfl

/-- C5 (amended): only the *radial* variant gates degenerate waves: a
radial wave whose stored wavenumber is 0 or whose stored angular frequency
is ≤ 0 (the non-finite case has no rational representative) has its
amplitude forced to 0, and a zero-amplitude slot contributes exactly zero
forcing.  The *plane* variant stores the amplitude exactly as given (when
the store has room), with no gate at all. -/
theorem C5_amended (O : Oracle) (p : RadialWaveProps) (s : WaterState)
    (dir : ℚ × ℚ) (wl : Option ℚ) (amp : ℚ) (sp ph om : Option ℚ)
    (hroom : s.planeWaves.length < 4) :
    ((addRadialWave O p s).uniforms.rw_k
        ⟨s.rwWrite % 4, Nat.mod_lt _ (by norm_num)⟩ = 0 ∨
      (addRadialWave O p s).uniforms.rw_omega
        ⟨s.rwWrite % 4, Nat.mod_lt _ (by norm_num)⟩ ≤ 0 →
      (addRadialWave O p s).uniforms.rw_amp
        ⟨s.rwWrite % 4, Nat.mod_lt _ (by norm_num)⟩ = 0) ∧
    (∀ (U : Uniforms) (lxy : ℚ × ℚ) (n : Fin 4), U.rw_amp n = 0 →
      rwTerm O U lxy n = 0) ∧
    (addPlaneWave O dir wl amp sp ph om s).uniforms.pw_amp
      ⟨s.planeWaves.length, hroom⟩ = amp := by
  refine ⟨?_, ?_, ?_⟩
  · intro hdeg
    simp only [addRadialWave, Function.update_same] at hdeg ⊢
    rcases hdeg with hk | hom
    · simp [hk]
    · simp [hom]
  · intro U lxy n hz
    simp [rwTerm, hz]
  · have hlen : s.planeWaves.length < min (s.planeWaves.length + 1) 4 := by omega
    simp [addPlaneWave, hroom, addPWToUniforms, hlen]

/-- C5 (witness): a radial wave with wavelength 0 and amplitude 9 is
stored gated to amplitude 0, while a plane wave's amplitude 6 is stored as
given. -/
theorem C5_witness :
    (addRadialWave oracle0 ⟨(0, 0), some 0, 9, 1/10, none, some 1, none, none⟩
      water0).uniforms.rw_amp 0 = 0 ∧
    (addPlaneWave oracle0 (1, 0) (some 10) 6 (some 2) none none
      water0).uniforms.pw_amp 0 = 6 := by
  have h := C5_amended oracle0 ⟨(0, 0), some 0, 9, 1/10, none, some 1, none, none⟩
    water0 (1, 0) (some 10) 6 (some 2) none none (by decide)
  exact ⟨h.1 (Or.inl rfl), h.2.2⟩

/-! ## C6 — angular-frequency resolution order -/

/-- C6: `_calcOmega` resolves `ω` in exactly the claimed priority order:
a finite positive explicit `omega` is returned as given; otherwise a
finite positive `periodSec` gives `2π/period`; otherwise a finite nonzero
`speed` gives `|k·speed|`; otherwise the deep-water fallback
`sqrt(max(0, g_sim·k))` (0 for `k ≤ 0`), floored at `MIN_OMEGA = 0.5`. -/
theorem C6_theorem (O : Oracle) (g_sim k : ℚ) (sp om pe : Option ℚ) :
    (∀ w, om = some w → 0 < w → calcOmega O g_sim k sp om pe = w) ∧
    (optPos om = false → ∀ p, pe = some p → 0 < p →
      calcOmega O g_sim k sp om pe = 2 * O.piQ / p) ∧
    (optPos om = false → optPos pe = false → ∀ c, sp = some c → c ≠ 0 →
      calcOmega O g_sim k sp om pe = |k * c|) ∧
    (optPos om = false → optPos pe = false → optNonzero sp = false →
      calcOmega O g_sim k sp om pe =
        max (if 0 < k then O.sqrtF (max 0 (g_sim * k)) else 0) MIN_OMEGA ∧
      MIN_OMEGA ≤ calcOmega O g_sim k sp om pe) := by
  refine ⟨?_, ?_, ?_, ?_⟩
  · intro w hw hpos
    subst hw
    simp [calcOmega, optPos, hpos]
  · intro hom p hp hpos
    subst hp
    simp only [calcOmega, hom]
    simp [optPos, hpos]
  · intro hom hpe c hc hne
    subst hc
    simp only [calcOmega, hom, hpe]
    simp [optNonzero, hne]
  · intro hom hpe hsp
    constructor
    · simp [calcOmega, hom, hpe, hsp]
    · simp only [calcOmega, hom, hpe, hsp, Bool.false_eq_true, if_false]
      exact le_max_right _ _

/-- C6 (witness): each branch evaluated — explicit `ω = 2` wins; period 4
gives `2π/4`; speed 2 with `k = 3/5` gives `6/5`; and with nothing given
and `k = 0` the fallback floors at `MIN_OMEGA = 1/2`. -/
theorem C6_witness :
    calcOmega oracle0 300 1 none (some 2) none = 2 ∧
    calcOmega oracle0 300 1 none (some 0) (some 4) = 2 * oracle0.piQ / 4 ∧
    calcOmega oracle0 300 (3/5) (some 2) none none = |(3/5 : ℚ) * 2| ∧
    MIN_OMEGA ≤ calcOmega oracle0 300 0 none none none := by
  refine ⟨(C6_theorem oracle0 300 1 none (some 2) none).1 2 rfl (by norm_num),
    (C6_theorem oracle0 300 1 none (some 0) (some 4)).2.1 (by decide) 4 rfl (by norm_num),
    (C6_theorem oracle0 300 (3/5) (some 2) none none).2.2.1 rfl rfl 2 rfl (by norm_num),
    ((C6_theorem oracle0 300 0 none none none).2.2.2 rfl rfl rfl).2⟩

/-! ## C9 — the zero state is a fixed point -/

/-- One `HEIGHT_FS` pass maps the all-zero buffer to the all-zero cell
when every wave amplitude gate is zero and the splash strength is zero —
for every oracle, every `dt` and every cell. -/
theorem heightStep_zero (O : Oracle) (W H : ℕ) (U : Uniforms)
    (g : ℕ → ℕ → ℚ × ℚ)
    (hpw : ∀ n, U.pw_amp n = 0) (hrw : ∀ n, U.rw_amp n = 0)
    (hsp : U.splashStrength = 0) (hg : ∀ a b, g a b = (0, 0)) (i j : ℕ) :
    heightStep O W H U g i j = (0, 0) := by
  simp [heightStep, hg, pwTerm, rwTerm, splashImpulse, hpw, hrw, hsp,
    clampQ, smoothstepQ, mixQ]

/-- C9: the all-zero state is a fixed point of the step function.  A
flat, at-rest field (every cell `(0,0)`) with all wave amplitude gates
zero and no pending splash stays exactly zero under `compUpdate` for every
sequence of time deltas (so after any number of steps). -/
theorem C9_theorem (O : Oracle) (s : WaterState)
    (hpw : ∀ n, s.uniforms.pw_amp n = 0) (hrw : ∀ n, s.uniforms.rw_amp n = 0)
    (hsp : s.uniforms.splashStrength = 0) (hg : ∀ a b, s.grid a b = (0, 0))
    (dts : List ℚ) :
    ∀ a b, (dts.foldl (fun t dt => compUpdate O dt t) s).grid a b = (0, 0) := by
  induction dts generalizing s with
  | nil => simpa using hg
  | cons d rest ih =>
    intro a b
    simp only [List.foldl_cons]
    refine ih (compUpdate O d s) ?_ ?_ ?_ ?_ a b
    · intro n; exact hpw n
    · intro n; exact hrw n
    · rfl
    · intro a b
      exact heightStep_zero O s.W s.H (stepUniforms d s) s.grid hpw hrw hsp hg a b

/-- C9 (witness): two 1/60-second steps on the fresh 8×8 state leave the
sampled cell exactly zero. -/
theorem C9_witness :
    ([(1/60 : ℚ), 1/60].foldl (fun t dt => compUpdate oracle0 dt t)
      water0).grid 3 3 = (0, 0) :=
  C9_theorem oracle0 water0 (fun _ => rfl) (fun _ => rfl) rfl
    (fun _ _ => rfl) [1/60, 1/60] 3 3

/-! ## C7 — bilinear interpolation is exact at grid nodes -/

/-- The bilinear sample taken exactly at grid node `(i, j)` — whose local
coordinates on the `W×H`-segmented plane of size `sizeX × sizeY` are
`lx = (i/(W-1) - 1/2)·sizeX`, `ly = (j/(H-1) - 1/2)·sizeY` — is exactly
the stored height of that node: the fractional texel coordinates land on
the integers `(i, j)` and both interpolation weights vanish. -/
theorem bilinearHeightValue_node (W H : ℕ) (grid : ℕ → ℕ → ℚ)
    (sizeX sizeY : ℚ) (i j : ℕ) (hW : 2 ≤ W) (hH : 2 ≤ H)
    (hi : i < W) (hj : j < H) (hsx : 0 < sizeX) (hsy : 0 < sizeY) :
    bilinearHeightValue W H grid sizeX sizeY
      (((i : ℚ) / ((W : ℚ) - 1) - 1/2) * sizeX)
      (((j : ℚ) / ((H : ℚ) - 1) - 1/2) * sizeY) = grid i j := by
  have hWq : (0:ℚ) < (W:ℚ) - 1 := by
    have h2 : (2:ℚ) ≤ (W:ℚ) := by exact_mod_cast hW
    linarith
  have hHq : (0:ℚ) < (H:ℚ) - 1 := by
    have h2 : (2:ℚ) ≤ (H:ℚ) := by exact_mod_cast hH
    linarith
  have hiq : (i:ℚ) ≤ (W:ℚ) - 1 := by
    have h1 : (i:ℚ) + 1 ≤ (W:ℚ) := by exact_mod_cast hi
    linarith
  have hjq : (j:ℚ) ≤ (H:ℚ) - 1 := by
    have h1 : (j:ℚ) + 1 ≤ (H:ℚ) := by exact_mod_cast hj
    linarith
  have hu : (((i : ℚ) / ((W : ℚ) - 1) - 1/2) * sizeX) * (1/sizeX) + 1/2
      = (i:ℚ) / ((W:ℚ) - 1) := by
    field_simp
    ring
  have hv : (((j : ℚ) / ((H : ℚ) - 1) - 1/2) * sizeY) * (1/sizeY) + 1/2
      = (j:ℚ) / ((H:ℚ) - 1) := by
    field_simp
    ring
  have hmaxx : max ((i:ℚ) / ((W:ℚ) - 1)) 0 = (i:ℚ) / ((W:ℚ) - 1) :=
    max_eq_left (div_nonneg (Nat.cast_nonneg i) hWq.le)
  have hminx : min ((i:ℚ) / ((W:ℚ) - 1)) 1 = (i:ℚ) / ((W:ℚ) - 1) :=
    min_eq_left ((div_le_one hWq).mpr hiq)
  have hmaxy : max ((j:ℚ) / ((H:ℚ) - 1)) 0 = (j:ℚ) / ((H:ℚ) - 1) :=
    max_eq_left (div_nonneg (Nat.cast_nonneg j) hHq.le)
  have hminy : min ((j:ℚ) / ((H:ℚ) - 1)) 1 = (j:ℚ) / ((H:ℚ) - 1) :=
    min_eq_left ((div_le_one hHq).mpr hjq)
  have hfx : (i:ℚ) / ((W:ℚ) - 1) * ((W:ℚ) - 1) = (i:ℚ) :=
    div_mul_cancel₀ _ hWq.ne'
  have hfy : (j:ℚ) / ((H:ℚ) - 1) * ((H:ℚ) - 1) = (j:ℚ) :=
    div_mul_cancel₀ _ hHq.ne'
  simp only [bilinearHeightValue, hu, hv, hmaxx, hminx, hmaxy, hminy, hfx, hfy,
    Int.floor_natCast, Int.toNat_natCast, Int.cast_natCast, sub_self, ite_self,
    mul_zero, add_zero]

/-- C7: evaluated exactly at a grid node's position, `getHeightAtPoint`
returns the node's raw stored height — unscaled by the interpolation —
composed into the documented return value: the resting world height
`baseY` plus that stored height times `displacementScale`, projected along
the plane's world normal component `normalY`. -/
theorem C7_theorem (W H : ℕ) (grid : ℕ → ℕ → ℚ)
    (sizeX sizeY ds nY baseY : ℚ) (i j : ℕ) (hW : 2 ≤ W) (hH : 2 ≤ H)
    (hi : i < W) (hj : j < H) (hsx : 0 < sizeX) (hsy : 0 < sizeY) :
    getHeightAtPoint W H grid sizeX sizeY ds nY baseY
      (((i : ℚ) / ((W : ℚ) - 1) - 1/2) * sizeX)
      (((j : ℚ) / ((H : ℚ) - 1) - 1/2) * sizeY)
    = baseY + grid i j * ds * nY := by
  rw [getHeightAtPoint,
    bilinearHeightValue_node W H grid sizeX sizeY i j hW hH hi hj hsx hsy]

/-- C7 (witness): on a 3×3 grid storing height `a + 10·b` at cell
`(a, b)`, the query at node `(1, 2)` of a 20×20 plane with displacement
scale 0.35, unit normal Y and resting height 3 returns
`3 + 21·0.35 = 207/20`. -/
theorem C7_witness :
    getHeightAtPoint 3 3 (fun a b => (a : ℚ) + 10 * (b : ℚ)) 20 20 (35/100) 1 3
      ((((1:ℕ) : ℚ) / (((3:ℕ) : ℚ) - 1) - 1/2) * 20)
      ((((2:ℕ) : ℚ) / (((3:ℕ) : ℚ) - 1) - 1/2) * 20) = 207/20 := by
  have h := C7_theorem 3 3 (fun a b => (a : ℚ) + 10 * (b : ℚ)) 20 20 (35/100) 1 3 1 2
    (by norm_num) (by norm_num) (by norm_num) (by norm_num) (by norm_num) (by norm_num)
  rw [h]
  norm_num

/-! ## C10 — buoyancy velocity clamps -/

theorem Vec3.normSq_smul (v : Vec3) (s : ℚ) :
    (v.smul s).normSq = v.normSq * s^2 := by
  simp only [Vec3.smul, Vec3.normSq]
  ring

/-- `clampLength(0, hi)` bounds the squared norm by `hi²`, provided the
runtime square root is exact and nonnegative at the one squared norm it is
applied to. -/
theorem clampLength_normSq_le (sqrtF : ℚ → ℚ) (v : Vec3) (hi : ℚ)
    (hhi : 0 ≤ hi) (h0 : 0 ≤ sqrtF v.normSq)
    (h2 : (sqrtF v.normSq)^2 = v.normSq) :
    (Vec3.clampLength sqrtF v 0 hi).normSq ≤ hi^2 := by
  simp only [Vec3.clampLength, Vec3.normSq_smul]
  set L := sqrtF v.normSq with hL
  by_cases hz : L = 0
  · rw [if_pos hz, ← h2, hz]
    nlinarith [sq_nonneg hi]
  · rw [if_neg hz, ← h2]
    calc L^2 * (1/L)^2 * (max 0 (min hi L))^2
        = (L * (1/L))^2 * (max 0 (min hi L))^2 := by ring
      _ = (max 0 (min hi L))^2 := by rw [mul_one_div_cancel hz]; ring
      _ ≤ hi^2 := by
          nlinarith [le_max_left (0:ℚ) (min hi L), max_le hhi (min_le_left hi L)]

/-- C10: after `_applyForces` (called by `CompBuoyancy.compUpdate`
whenever at least one probe returned a finite water height), the body's
vertical velocity lies within `[-20, 20]` and the squared magnitude of
its angular velocity is at most `(4π)²` — for every input state, force,
torque and time step, assuming only that the runtime square root is exact
and nonnegative at the squared norm it is consulted on and that the
runtime value of `Math.PI` is nonnegative. -/
theorem C10_theorem (O : Oracle) (density volume dragC angDragC gravityY
    avgWaterHeight buoyancyForceY : ℚ) (st : BuoyancyState) (torque : Vec3)
    (dt : ℚ) (hpi : 0 ≤ O.piQ)
    (h0 : 0 ≤ O.sqrtF (angVelPreClamp volume angDragC st.angVel torque dt).normSq)
    (h2 : (O.sqrtF (angVelPreClamp volume angDragC st.angVel torque dt).normSq)^2
      = (angVelPreClamp volume angDragC st.angVel torque dt).normSq) :
    (-20 ≤ (applyForces O density volume dragC angDragC gravityY st
        avgWaterHeight buoyancyForceY torque dt).velY ∧
      (applyForces O density volume dragC angDragC gravityY st
        avgWaterHeight buoyancyForceY torque dt).velY ≤ 20) ∧
    (applyForces O density volume dragC angDragC gravityY st
      avgWaterHeight buoyancyForceY torque dt).angVel.normSq ≤ (O.piQ * 4)^2 := by
  refine ⟨⟨?_, ?_⟩, ?_⟩
  · exact le_max_left _ _
  · exact max_le (by norm_num) (min_le_left _ _)
  · exact clampLength_normSq_le O.sqrtF _ _
      (mul_nonneg hpi (by norm_num)) h0 h2

/-- C10 (witness): a body spinning at angular velocity `(3, 4, 0)` (norm
5) with no torque, `dt = 0`, under the oracle whose square root is exact
at 25 and whose `Math.PI` is 3: the clamps hold. -/
theorem C10_witness :
    (-20 ≤ (applyForces oracleB 1 1 1 1 (-981/100) ⟨0, 0, ⟨3, 4, 0⟩⟩
        0 0 ⟨0, 0, 0⟩ 0).velY ∧
      (applyForces oracleB 1 1 1 1 (-981/100) ⟨0, 0, ⟨3, 4, 0⟩⟩
        0 0 ⟨0, 0, 0⟩ 0).velY ≤ 20) ∧
    (applyForces oracleB 1 1 1 1 (-981/100) ⟨0, 0, ⟨3, 4, 0⟩⟩
      0 0 ⟨0, 0, 0⟩ 0).angVel.normSq ≤ (oracleB.piQ * 4)^2 :=
  C10_theorem oracleB 1 1 1 1 (-981/100) 0 0 ⟨0, 0, ⟨3, 4, 0⟩⟩ ⟨0, 0, 0⟩ 0
    (by norm_num [oracleB])
    (by norm_num [oracleB, angVelPreClamp, Vec3.addScaled, Vec3.smul, Vec3.normSq])
    (by norm_num [oracleB, angVelPreClamp, Vec3.addScaled, Vec3.smul, Vec3.normSq])

/-! ## C8 — the splash kernel is not zero-mean -/

open MeasureTheory Real Set

theorem integrable_sq_mul_gauss {c : ℝ} (hc : 0 < c) :
    Integrable (fun x : ℝ => x^2 * Real.exp (-c * x^2)) := by
  have h := integrable_rpow_mul_exp_neg_mul_sq hc (show (-1:ℝ) < 2 by norm_num)
  have h2 : ∀ x : ℝ, x ^ (2:ℝ) = x ^ 2 := fun x => by
    rw [show (2:ℝ) = ((2:ℕ):ℝ) by norm_num, Real.rpow_natCast]
  simpa only [h2] using h

theorem integral_sq_mul_gauss {c : ℝ} (hc : 0 < c) :
    ∫ x : ℝ, x^2 * Real.exp (-c * x^2)
      = c ^ (-(3:ℝ)/2) * Real.sqrt Real.pi / 2 := by
  have h2 : ∀ x : ℝ, x ^ (2:ℝ) = x ^ 2 := fun x => by
    rw [show (2:ℝ) = ((2:ℕ):ℝ) by norm_num, Real.rpow_natCast]
  have h1 : ∫ x in Ioi (0:ℝ), x ^ (2:ℝ) * Real.exp (-c * x ^ (2:ℝ))
      = c ^ (-((2:ℝ)+1)/2) * (1/2) * Real.Gamma (((2:ℝ)+1)/2) :=
    integral_rpow_mul_exp_neg_mul_rpow (by norm_num) (by norm_num) hc
  simp only [h2] at h1
  have hg : Real.Gamma (((2:ℝ)+1)/2) = Real.sqrt Real.pi / 2 := by
    rw [show ((2:ℝ)+1)/2 = 1/2 + 1 by norm_num,
      Real.Gamma_add_one (by norm_num), Real.Gamma_one_half_eq]
    ring
  have h3 : ∫ x : ℝ, x^2 * Real.exp (-c * x^2)
      = 2 * ∫ x in Ioi (0:ℝ), x^2 * Real.exp (-c * x^2) := by
    rw [← integral_comp_abs (f := fun t : ℝ => t^2 * Real.exp (-c * t^2))]
    simp_rw [sq_abs]
  rw [h3, h1, hg]
  rw [show -((2:ℝ)+1)/2 = -(3:ℝ)/2 by norm_num]
  ring

theorem integral_hatKernel {a c : ℝ} (hc : 0 < c) :
    ∫ p : ℝ × ℝ, hatKernel a c p = Real.pi / c - a * Real.pi / c^2 := by
  have hIg : Integrable (fun x : ℝ => Real.exp (-c * x^2)) :=
    integrable_exp_neg_mul_sq hc
  have hIm : Integrable (fun x : ℝ => x^2 * Real.exp (-c * x^2)) :=
    integrable_sq_mul_gauss hc
  have hF1 : Integrable (fun p : ℝ × ℝ =>
      Real.exp (-c * p.1^2) * Real.exp (-c * p.2^2)) := hIg.prod_mul hIg
  have hF2 : Integrable (fun p : ℝ × ℝ =>
      p.1^2 * Real.exp (-c * p.1^2) * Real.exp (-c * p.2^2)) := hIm.prod_mul hIg
  have hF3 : Integrable (fun p : ℝ × ℝ =>
      Real.exp (-c * p.1^2) * (p.2^2 * Real.exp (-c * p.2^2))) := hIg.prod_mul hIm
  have hF12 : Integrable (fun p : ℝ × ℝ =>
      Real.exp (-c * p.1^2) * Real.exp (-c * p.2^2)
        - a * (p.1^2 * Real.exp (-c * p.1^2) * Real.exp (-c * p.2^2))) :=
    hF1.sub (hF2.const_mul a)
  have hF3a : Integrable (fun p : ℝ × ℝ =>
      a * (Real.exp (-c * p.1^2) * (p.2^2 * Real.exp (-c * p.2^2)))) :=
    hF3.const_mul a
  have hF2a : Integrable (fun p : ℝ × ℝ =>
      a * (p.1^2 * Real.exp (-c * p.1^2) * Real.exp (-c * p.2^2))) :=
    hF2.const_mul a
  have hsplit : ∀ p : ℝ × ℝ, hatKernel a c p
      = Real.exp (-c * p.1^2) * Real.exp (-c * p.2^2)
        - a * (p.1^2 * Real.exp (-c * p.1^2) * Real.exp (-c * p.2^2))
        - a * (Real.exp (-c * p.1^2) * (p.2^2 * Real.exp (-c * p.2^2))) := by
    intro p
    simp only [hatKernel]
    rw [show -c * (p.1^2 + p.2^2) = -c * p.1^2 + -c * p.2^2 by ring, Real.exp_add]
    ring
  simp only [hsplit]
  rw [integral_sub hF12 hF3a, integral_sub hF1 hF2a,
    integral_mul_left, integral_mul_left]
  rw [Measure.volume_eq_prod,
    integral_prod_mul (fun x : ℝ => Real.exp (-c * x^2))
      (fun y : ℝ => Real.exp (-c * y^2)),
    integral_prod_mul (fun x : ℝ => x^2 * Real.exp (-c * x^2))
      (fun y : ℝ => Real.exp (-c * y^2)),
    integral_prod_mul (fun x : ℝ => Real.exp (-c * x^2))
      (fun y : ℝ => y^2 * Real.exp (-c * y^2))]
  rw [integral_gaussian, integral_sq_mul_gauss hc]
  have hs0 : Real.sqrt c ≠ 0 := (Real.sqrt_pos.mpr hc).ne'
  have hc0 : c ≠ 0 := hc.ne'
  have hdiv : Real.sqrt (Real.pi / c) = Real.sqrt Real.pi / Real.sqrt c :=
    Real.sqrt_div Real.pi_pos.le c
  have hrpow : c ^ (-(3:ℝ)/2) = 1 / (c * Real.sqrt c) := by
    rw [show (-(3:ℝ)/2) = -((3:ℝ)/2) by norm_num, Real.rpow_neg hc.le,
      show ((3:ℝ)/2) = 1 + 1/2 by norm_num, Real.rpow_add hc, Real.rpow_one,
      ← Real.sqrt_eq_rpow]
    rw [one_div]
  have hss : Real.sqrt c * Real.sqrt c = c := Real.mul_self_sqrt hc.le
  have htt : Real.sqrt Real.pi * Real.sqrt Real.pi = Real.pi :=
    Real.mul_self_sqrt Real.pi_pos.le
  rw [hdiv, hrpow, ← htt, ← hss]
  field_simp
  linear_combination (Real.pi * c ^ 4 * Real.sqrt c ^ 2 * a * 4) * hss

/-- C8: the splash impulse kernel `(1 - 50r²)·exp(-100r²)` (unit radius
and strength) is **not** zero-mean: its integral over the plane is exactly
`π/200` — half the mass `π/100` of the bare Gaussian bell `exp(-100r²)`,
so the negative ring cancels far too little and a splash *does* inject
net velocity.  With the matched coefficient `(1 - 100r²)` the integral
would be exactly zero, which is what the shader comment
"positive center, negative ring ⇒ net ≈ 0" intends. -/
theorem C8_theorem :
    (∫ p : ℝ × ℝ, splashImpulseReal 1 1 p.1 p.2) = Real.pi / 200 ∧
    (∫ p : ℝ × ℝ, splashImpulseReal 1 1 p.1 p.2) ≠ 0 ∧
    (∫ p : ℝ × ℝ, hatKernel 100 100 p) = 0 := by
  have hk : ∀ p : ℝ × ℝ, splashImpulseReal 1 1 p.1 p.2 = hatKernel 50 100 p := by
    intro p
    simp [splashImpulseReal, hatKernel]
  have h1 : (∫ p : ℝ × ℝ, splashImpulseReal 1 1 p.1 p.2) = Real.pi / 200 := by
    simp_rw [hk]
    rw [integral_hatKernel (by norm_num : (0:ℝ) < 100)]
    ring
  have h3 : (∫ p : ℝ × ℝ, hatKernel 100 100 p) = 0 := by
    rw [integral_hatKernel (by norm_num : (0:ℝ) < 100)]
    ring
  refine ⟨h1, ?_, h3⟩
  rw [h1]
  positivity

end Water

